import Mathlib

/-!
Verification of the supervised-actor runtime (`src/index.ts`).

Shallow embedding of the supervised-actor core (`createSuperVisor`, the
`ActorMessage` envelope union, the `Effect.retry` policy, `Queue.offer`
acceptance) and of the bank-account domain handler
(`bankAccountHandler`), together with theorems settling the frozen
claims about the repository.

Modelling decisions, each traceable to the source:

* `Queue.unbounded` with `Queue.take` by a single consumer and
  `Queue.offer` by producers is a FIFO list of envelopes; a run of the
  actor loop over the finite sequence of envelopes that producers
  enqueued is the fold of one loop iteration over that list.
  `Queue.offer` on an unbounded queue that is never shut down always
  succeeds and returns `true` (the source never calls `Queue.shutdown`).
* The handler is a possibly-failing transition `S → M → Except E S`,
  the spec's `(S, M) -> S that may fail`.  The demo bank handler has
  error type `never`, modelled as `Empty`.
* `Effect.retry(eff, { times: 3 })` executes `eff` once and, on
  failure, re-executes it up to 3 more times (Effect counts *retries*,
  not total attempts).  `retryRun op retries` returns the result
  together with the number of invocations actually performed; the op is
  indexed by the attempt number so that per-attempt behaviour (fail
  then succeed) is expressible.  The loop re-runs the same effect
  value, so it instantiates the op constantly.
* In `Effect.gen`, a failure of a yielded effect is delivered through
  the Effect error channel and never thrown into the generator, so the
  JavaScript `try/catch` in `actorLoop` cannot observe it: when
  `Effect.retry` exhausts its attempts the forked fiber fails and the
  loop stops consuming the queue, with no report.  Even under the
  naive reading in which the catch did fire, it sits *outside* the
  `while`, so the loop would still terminate.  `LoopStatus.Crashed`
  models this abnormal exit; envelopes still in the queue are left
  unprocessed.
* `Date.now()` is ambient; the bank handler takes the timestamp as an
  explicit parameter.
-/

deriving instance DecidableEq for Except

namespace ActorSystem

/-- Envelope union from the source: `{_tag:"Message"; payload} | {_tag:"Stop"} | {_tag:"Restart"}`. -/
inductive ActorMessage (M : Type) where
  | Message (payload : M)
  | Stop
  | Restart
  deriving DecidableEq, Repr

/-- Status of the supervisor loop fiber: `Running` (inside the `while`),
`Stopped` (broke out on a `Stop` envelope), `Crashed` (the fiber failed
because an exhausted `Effect.retry` propagated its failure past the
generator). -/
inductive LoopStatus where
  | Running
  | Stopped
  | Crashed
  deriving DecidableEq, Repr

/-- Observable state of one actor's run: the State Cell contents, the
loop status, and the envelopes the loop has dequeued and handled so
far. -/
structure LoopState (S M : Type) where
  state : S
  status : LoopStatus
  processed : List (ActorMessage M)
  deriving DecidableEq, Repr

/-- One run of `Effect.retry(op, { times: r })` where the attempt
index selects the outcome of each execution of the effect.  Returns
the final `Except` outcome paired with the number of invocations of
`op`.  `i` is the index of the current attempt. -/
def retryGo {E A : Type} (op : Nat → Except E A) : Nat → Nat → Except E A × Nat
  | i, 0 => (op i, 1)
  | i, r + 1 =>
    match op i with
    | .ok a => (.ok a, 1)
    | .error _ => ((retryGo op (i + 1) r).1, (retryGo op (i + 1) r).2 + 1)

/-- Entry point of the Retry Executor: first attempt has index 0. -/
def retryRun {E A : Type} (op : Nat → Except E A) (retries : Nat) : Except E A × Nat :=
  retryGo op 0 retries

/-- One iteration of the `while (true)` body of `actorLoop` in
`createSuperVisor`, applied to the next envelope taken from the queue.
A `Stop` breaks out of the loop; a `Restart` sets the State Cell back
to `initialState`; a `Message` runs the handler through
`Effect.retry(..., { times: 3 })` and on success stores the new state.
On exhausted retries the failure escapes the generator (the
`try/catch` does not intercept Effect failures) and the fiber dies:
status `Crashed`, state unchanged.  Once the status is not `Running`
the loop no longer consumes envelopes. -/
def superviseStep {S M E : Type} (handler : S → M → Except E S) (initialState : S)
    (st : LoopState S M) (msg : ActorMessage M) : LoopState S M :=
  match st.status with
  | .Running =>
    match msg with
    | .Stop => { st with status := .Stopped, processed := st.processed ++ [ActorMessage.Stop] }
    | .Restart => { st with state := initialState, processed := st.processed ++ [ActorMessage.Restart] }
    | .Message m =>
      match (retryRun (fun _ => handler st.state m) 3).1 with
      | .ok s' => { st with state := s', processed := st.processed ++ [ActorMessage.Message m] }
      | .error _ => { st with status := .Crashed, processed := st.processed ++ [ActorMessage.Message m] }
  | _ => st

/-- Run of the supervisor loop of `createSuperVisor` over the finite
FIFO sequence of envelopes offered to the mailbox, starting from the
constructor's `initalState`. -/
def runLoop {S M E : Type} (handler : S → M → Except E S) (initialState : S)
    (msgs : List (ActorMessage M)) : LoopState S M :=
  msgs.foldl (superviseStep handler initialState) ⟨initialState, .Running, []⟩

/-- `Queue.offer` on the unbounded mailbox: appends and always
succeeds with `true` (the source never shuts the queue down, and an
unbounded queue never rejects for capacity). -/
def queueOffer {M : Type} (q : List (ActorMessage M)) (e : ActorMessage M) :
    List (ActorMessage M) × Bool :=
  (q ++ [e], true)

/-- Actor Handle `send`: `Queue.offer(queue, { _tag: "Message", payload })`. -/
def sendQ {M : Type} (q : List (ActorMessage M)) (m : M) : List (ActorMessage M) × Bool :=
  queueOffer q (ActorMessage.Message m)

/-- Actor Handle `stop`: `Queue.offer(queue, { _tag: "Stop" })`. -/
def stopQ {M : Type} (q : List (ActorMessage M)) : List (ActorMessage M) × Bool :=
  queueOffer q ActorMessage.Stop

/-- Actor Handle `restart`: `Queue.offer(queue, { _tag: "Restart" })`. -/
def restartQ {M : Type} (q : List (ActorMessage M)) : List (ActorMessage M) × Bool :=
  queueOffer q ActorMessage.Restart

/-- Actor Handle `getState`: `Ref.get(stateRef)`, reading the State Cell. -/
def getState {S M : Type} (st : LoopState S M) : S :=
  st.state

/-- Modelled from the spec (testable property §8, used only to compare
with the code's behaviour): the final state as the left-fold of the
Handler over the payloads, where a payload whose invocation failed
acts as the identity on the state. -/
def specStateFold {S M E : Type} (handler : S → M → Except E S) (initialState : S)
    (msgs : List M) : S :=
  msgs.foldl (fun s m => match handler s m with | .ok s' => s' | .error _ => s) initialState

/-- Transaction record from the source's `BankAccount.transactions`
element type `{ type: string; amount: number; timestamp: number }`. -/
structure BankTx where
  type : String
  amount : Int
  timestamp : Nat
  deriving DecidableEq, Repr

/-- The `BankAccount` interface of the source. -/
structure BankAccount where
  balance : Int
  transactions : List BankTx
  deriving DecidableEq, Repr

/-- The `BankMessage` union of the source. -/
inductive BankMessage where
  | deposit (amount : Int)
  | withdraw (amount : Int)
  | transfer («to» : String) (amount : Int)
  deriving DecidableEq, Repr

/-- The source's `bankAccountHandler`: deposit always succeeds and
appends a record; withdraw and transfer are rejected (state returned
unchanged) when `state.balance < message.amount`, otherwise they
subtract and append a record.  Its Effect error channel is `never`
(`Effect.Effect<BankAccount>`), modelled by `Except Empty`. -/
def bankAccountHandler (timestamp : Nat) (state : BankAccount) (message : BankMessage) :
    Except Empty BankAccount :=
  match message with
  | .deposit amount =>
    .ok { balance := state.balance + amount,
          transactions := state.transactions ++ [⟨"deposit", amount, timestamp⟩] }
  | .withdraw amount =>
    if state.balance < amount then
      .ok state
    else
      .ok { balance := state.balance - amount,
            transactions := state.transactions ++ [⟨"withdraw", amount, timestamp⟩] }
  | .transfer _ amount =>
    if state.balance < amount then
      .ok state
    else
      .ok { balance := state.balance - amount,
            transactions := state.transactions ++ [⟨"transfer", amount, timestamp⟩] }

/-- Signed contribution of one transaction record to the balance, as in
the demo's summary fold: deposits add, everything else subtracts. -/
def txDelta (t : BankTx) : Int :=
  if t.type = "deposit" then t.amount else -t.amount

/-- Net movement recorded in a transaction list. -/
def txSum (l : List BankTx) : Int :=
  (l.map txDelta).sum

/-- Balance minus recorded net movement; constant along handler
applications iff the ledger invariant holds. -/
def balanceDrift (s : BankAccount) : Int :=
  s.balance - txSum s.transactions

/-- Record type string produced for each `BankMessage` variant. -/
def msgType : BankMessage → String
  | .deposit _ => "deposit"
  | .withdraw _ => "withdraw"
  | .transfer _ _ => "transfer"

/-- Amount carried by a `BankMessage`. -/
def msgAmount : BankMessage → Int
  | .deposit a => a
  | .withdraw a => a
  | .transfer _ a => a

/-- A handler that always fails, exercising the retry-exhaustion path
of the loop. -/
def hFail : Int → Int → Except Unit Int := fun _ _ => .error ()

/-- A handler that adds the payload to the state and never fails. -/
def hAdd : Int → Int → Except Unit Int := fun s m => .ok (s + m)

/-- A handler that fails exactly on payload 0 and otherwise adds the
payload to the state. -/
def hZ : Int → Int → Except Unit Int := fun s m => if m = 0 then .error () else .ok (s + m)

/-- An operation that fails on its first three invocations and
succeeds on the fourth. -/
def opFailThrice : Nat → Except Unit Nat := fun i => if i < 3 then .error () else .ok 42

/-- An operation that fails on its first two invocations and succeeds
on the third. -/
def opFailTwice : Nat → Except Unit Nat := fun i => if i < 2 then .error () else .ok 7

/-! ## Retry Executor lemmas -/

/-- The Retry Executor performs at most `r + 1` invocations of the
operation when configured with `r` retries. -/
theorem retryGo_count_le {E A : Type} (op : Nat → Except E A) (r : Nat) :
    ∀ i, (retryGo op i r).2 ≤ r + 1 := by
  induction r with
  | zero => intro i; simp [retryGo]
  | succ r ih =>
    intro i
    simp only [retryGo]
    cases h : op i with
    | ok a => simp
    | error e =>
      have := ih (i + 1)
      simp only []
      omega

/-- The Retry Executor stops at the first successful invocation: if
the attempts at offsets `i, …, i + j - 1` fail and the attempt at
offset `i + j` succeeds within the retry budget, the run returns that
success after exactly `j + 1` invocations. -/
theorem retryGo_first_success {E A : Type} (op : Nat → Except E A) (r : Nat) :
    ∀ i j a, j ≤ r → (∀ k, k < j → ∃ e, op (i + k) = Except.error e) →
      op (i + j) = Except.ok a → retryGo op i r = (Except.ok a, j + 1) := by
  induction r with
  | zero =>
    intro i j a hj hfail hok
    have hj0 : j = 0 := Nat.le_zero.mp hj
    subst hj0
    rw [Nat.add_zero] at hok
    simp [retryGo, hok]
  | succ r ih =>
    intro i j a hj hfail hok
    cases j with
    | zero =>
      rw [Nat.add_zero] at hok
      simp [retryGo, hok]
    | succ j' =>
      obtain ⟨e, he⟩ := hfail 0 (Nat.succ_pos j')
      rw [Nat.add_zero] at he
      simp only [retryGo, he]
      have h1 : ∀ k, k < j' → ∃ e, op (i + 1 + k) = Except.error e := by
        intro k hk
        have hx := hfail (k + 1) (by omega)
        have heq : i + (k + 1) = i + 1 + k := by omega
        rwa [heq] at hx
      have h2 : op (i + 1 + j') = Except.ok a := by
        have heq : i + (j' + 1) = i + 1 + j' := by omega
        rwa [heq] at hok
      rw [ih (i + 1) j' a (by omega) h1 h2]

/-- When every invocation in the budget fails, the Retry Executor
returns the failure of the last attempt, after `r + 1` invocations. -/
theorem retryGo_all_fail {E A : Type} (op : Nat → Except E A) (r : Nat) :
    ∀ i, (∀ k, k ≤ r → ∃ e, op (i + k) = Except.error e) →
      retryGo op i r = (op (i + r), r + 1) := by
  induction r with
  | zero => intro i _; simp [retryGo]
  | succ r ih =>
    intro i hfail
    obtain ⟨e, he⟩ := hfail 0 (Nat.zero_le _)
    rw [Nat.add_zero] at he
    simp only [retryGo, he]
    have h1 : ∀ k, k ≤ r → ∃ e, op (i + 1 + k) = Except.error e := by
      intro k hk
      have hx := hfail (k + 1) (by omega)
      have heq : i + (k + 1) = i + 1 + k := by omega
      rwa [heq] at hx
    rw [ih (i + 1) h1]
    have heq : i + 1 + r = i + (r + 1) := by omega
    rw [heq]

/-! ## Claim C2 -/

/-- C2 (counterexample): the Retry Executor as coded,
`Effect.retry(op, { times: 3 })`, does not invoke the operation at
most 3 times: an operation failing on its first three invocations is
invoked a fourth time and the run succeeds, whereas the claim says
the run would have returned the last failure after 3 invocations. -/
theorem retry_executor_attempt_count_cex :
    (retryRun opFailThrice 3).2 = 4 ∧ (retryRun opFailThrice 3).1 = Except.ok 42 ∧
      ¬(retryRun opFailThrice 3).2 ≤ 3 := by decide

/-- C2 (amended): with `r` retries (`{ times: r }`, the code fixes
`r = 3`), the Retry Executor invokes the operation at most `r + 1`
times (so at most 4 by default), stops at the first successful
invocation, and when every invocation fails it returns the failure of
the last attempt as a value to the Supervisor Loop rather than
raising past it. -/
theorem retry_executor_bounds {E A : Type} (op : Nat → Except E A) (r : Nat) :
    (retryRun op r).2 ≤ r + 1 ∧
    (∀ j a, j ≤ r → (∀ k, k < j → ∃ e, op k = Except.error e) →
      op j = Except.ok a → retryRun op r = (Except.ok a, j + 1)) ∧
    ((∀ k, k ≤ r → ∃ e, op k = Except.error e) → retryRun op r = (op r, r + 1)) := by
  refine ⟨retryGo_count_le op r 0, ?_, ?_⟩
  · intro j a hj hfail hok
    have hx := retryGo_first_success op r 0 j a hj (by simpa using hfail) (by simpa using hok)
    simpa [retryRun] using hx
  · intro hfail
    have hx := retryGo_all_fail op r 0 (by simpa using hfail)
    simpa [retryRun] using hx

/-- C2 (witness): a concrete run of the amended bound — an operation
failing on its first two invocations and succeeding on the third is
invoked exactly 3 times and its success is returned. -/
theorem retry_executor_bounds_witness :
    retryRun opFailTwice 3 = (Except.ok 7, 3) :=
  (retry_executor_bounds opFailTwice 3).2.1 2 7 (by omega)
    (fun k hk => ⟨(), by simp [opFailTwice, hk]⟩) (by decide)

/-! ## Supervisor Loop lemmas -/

/-- Once the loop has exited (`Stopped` or `Crashed`), an envelope is
left untouched: the loop no longer consumes the queue. -/
theorem superviseStep_not_running {S M E : Type} (handler : S → M → Except E S) (init : S)
    (st : LoopState S M) (msg : ActorMessage M) (h : st.status ≠ LoopStatus.Running) :
    superviseStep handler init st msg = st := by
  cases hs : st.status with
  | Running => exact absurd hs h
  | Stopped => simp [superviseStep, hs]
  | Crashed => simp [superviseStep, hs]

/-- A loop that has exited stays exited and keeps its state, whatever
remains in the queue. -/
theorem foldl_step_not_running {S M E : Type} (handler : S → M → Except E S) (init : S)
    (l : List (ActorMessage M)) :
    ∀ st : LoopState S M, st.status ≠ LoopStatus.Running →
      l.foldl (superviseStep handler init) st = st := by
  induction l with
  | nil => intro st _; rfl
  | cons m l ih =>
    intro st h
    rw [List.foldl_cons, superviseStep_not_running handler init st m h]
    exact ih st h

/-- While the loop is running, each iteration records exactly the
envelope it dequeued. -/
theorem superviseStep_processed_of_running {S M E : Type} (handler : S → M → Except E S)
    (init : S) (st : LoopState S M) (msg : ActorMessage M)
    (hs : st.status = LoopStatus.Running) :
    (superviseStep handler init st msg).processed = st.processed ++ [msg] := by
  cases msg with
  | Stop => simp [superviseStep, hs]
  | Restart => simp [superviseStep, hs]
  | Message m =>
    simp only [superviseStep, hs]
    cases hr : (retryRun (fun _ => handler st.state m) 3).1 with
    | ok s' => simp
    | error e => simp

/-- If an iteration leaves the loop running, it was running before. -/
theorem superviseStep_status_running {S M E : Type} (handler : S → M → Except E S)
    (init : S) (st : LoopState S M) (msg : ActorMessage M)
    (h : (superviseStep handler init st msg).status = LoopStatus.Running) :
    st.status = LoopStatus.Running := by
  by_contra hn
  rw [superviseStep_not_running handler init st msg hn] at h
  exact hn h

/-- A run that is still running has processed every envelope it was
given, in order. -/
theorem foldl_step_running_processed {S M E : Type} (handler : S → M → Except E S) (init : S)
    (l : List (ActorMessage M)) :
    ∀ st : LoopState S M,
      (l.foldl (superviseStep handler init) st).status = LoopStatus.Running →
      st.status = LoopStatus.Running ∧
        (l.foldl (superviseStep handler init) st).processed = st.processed ++ l := by
  induction l with
  | nil => intro st h; exact ⟨h, by simp⟩
  | cons m l ih =>
    intro st h
    rw [List.foldl_cons] at h ⊢
    obtain ⟨h1, h2⟩ := ih (superviseStep handler init st m) h
    have h0 := superviseStep_status_running handler init st m h1
    refine ⟨h0, ?_⟩
    rw [h2, superviseStep_processed_of_running handler init st m h0]
    simp

/-- A run of the whole loop that never exited processed exactly the
envelope sequence it was offered. -/
theorem runLoop_running_processed {S M E : Type} (handler : S → M → Except E S) (init : S)
    (msgs : List (ActorMessage M)) (h : (runLoop handler init msgs).status = LoopStatus.Running) :
    (runLoop handler init msgs).processed = msgs := by
  have hx := (foldl_step_running_processed handler init msgs ⟨init, .Running, []⟩ h).2
  simpa [runLoop] using hx

/-- Each iteration grows the processed list by at most one envelope. -/
theorem superviseStep_processed_length {S M E : Type} (handler : S → M → Except E S)
    (init : S) (st : LoopState S M) (msg : ActorMessage M) :
    (superviseStep handler init st msg).processed.length ≤ st.processed.length + 1 := by
  by_cases hs : st.status = LoopStatus.Running
  · rw [superviseStep_processed_of_running handler init st msg hs]
    simp
  · rw [superviseStep_not_running handler init st msg hs]
    omega

/-- The processed list grows by at most the number of envelopes
offered. -/
theorem foldl_step_processed_length {S M E : Type} (handler : S → M → Except E S) (init : S)
    (l : List (ActorMessage M)) :
    ∀ st : LoopState S M,
      (l.foldl (superviseStep handler init) st).processed.length ≤
        st.processed.length + l.length := by
  induction l with
  | nil => intro st; simp
  | cons m l ih =>
    intro st
    rw [List.foldl_cons]
    have h1 := ih (superviseStep handler init st m)
    have h2 := superviseStep_processed_length handler init st m
    simp only [List.length_cons]
    omega

/-- Processing a `Stop` envelope leaves the loop in a non-running
status, whatever the status before it. -/
theorem superviseStep_stop_not_running {S M E : Type} (handler : S → M → Except E S)
    (init : S) (st : LoopState S M) :
    (superviseStep handler init st ActorMessage.Stop).status ≠ LoopStatus.Running := by
  cases hs : st.status with
  | Running => simp [superviseStep, hs]
  | Stopped => rw [superviseStep_not_running handler init st _ (by rw [hs]; simp), hs]; simp
  | Crashed => rw [superviseStep_not_running handler init st _ (by rw [hs]; simp), hs]; simp

/-- After a queue ending in `Stop`, the loop has exited. -/
theorem runLoop_stop_not_running {S M E : Type} (handler : S → M → Except E S) (init : S)
    (pre : List (ActorMessage M)) :
    (runLoop handler init (pre ++ [ActorMessage.Stop])).status ≠ LoopStatus.Running := by
  unfold runLoop
  rw [List.foldl_append]
  exact superviseStep_stop_not_running handler init _

/-- Envelopes behind a `Stop` never change the run: the loop has
exited by the time they would be dequeued. -/
theorem runLoop_absorb_after_stop {S M E : Type} (handler : S → M → Except E S) (init : S)
    (pre post : List (ActorMessage M)) :
    runLoop handler init (pre ++ ActorMessage.Stop :: post) =
      runLoop handler init (pre ++ [ActorMessage.Stop]) := by
  have hsplit : pre ++ ActorMessage.Stop :: post = (pre ++ [ActorMessage.Stop]) ++ post := by
    simp
  rw [hsplit]
  show (runLoop handler init (pre ++ [ActorMessage.Stop] ++ post)) = _
  unfold runLoop
  rw [List.foldl_append]
  exact foldl_step_not_running handler init post _ (runLoop_stop_not_running handler init pre)

/-- Splitting a run at its last envelope. -/
theorem runLoop_snoc {S M E : Type} (handler : S → M → Except E S) (init : S)
    (pre : List (ActorMessage M)) (msg : ActorMessage M) :
    runLoop handler init (pre ++ [msg]) =
      superviseStep handler init (runLoop handler init pre) msg := by
  unfold runLoop
  rw [List.foldl_append]
  rfl

/-! ## Claim C1 -/

/-- C1: evaluation of the loop at a handler that fails every attempt.
Contrary to the claim, retry exhaustion terminates the loop: the run
over `[Message 1, Message 2]` leaves the initial state unchanged (as
the claim says) but exits with a crashed fiber after the first
envelope — the second envelope is never dequeued, and no report is
delivered since the failure of the yielded `Effect.retry` bypasses
the loop's `try/catch`.  The retry run performs all 4 attempts. -/
theorem retry_exhaustion_crashes_loop :
    runLoop hFail 0 [ActorMessage.Message 1, ActorMessage.Message 2] =
      ⟨0, LoopStatus.Crashed, [ActorMessage.Message 1]⟩ ∧
    (retryRun (fun _ => hFail 0 1) 3).2 = 4 := by decide

/-! ## Claim C4 -/

/-- C4: the claimed left-fold semantics (failed payloads act as the
identity) diverges from the code.  With a handler failing exactly on
payload 0, the spec's fold over `[0, 5]` yields 5, but the code's
loop crashes on the first payload and never applies the second,
leaving the state at 0. -/
theorem final_state_fold_divergence :
    specStateFold hZ 0 [0, 5] = 5 ∧
    (runLoop hZ 0 [ActorMessage.Message 0, ActorMessage.Message 5]).state = 0 ∧
    (runLoop hZ 0 [ActorMessage.Message 0, ActorMessage.Message 5]).state ≠
      specStateFold hZ 0 [0, 5] := by decide

/-! ## Claim C5 -/

/-- C5: whenever the loop is still running and processes a `Restart`
envelope, the State Cell is set to the exact `initalState` passed at
construction, discarding all prior mutation, however many envelopes
were processed before; the loop remains running. -/
theorem restart_resets_state {S M E : Type} (handler : S → M → Except E S) (init : S)
    (pre : List (ActorMessage M)) (h : (runLoop handler init pre).status = LoopStatus.Running) :
    getState (runLoop handler init (pre ++ [ActorMessage.Restart])) = init ∧
    (runLoop handler init (pre ++ [ActorMessage.Restart])).status = LoopStatus.Running := by
  rw [runLoop_snoc]
  constructor <;> simp [superviseStep, h, getState]

/-- C5 (witness): after an actor over the adding handler processed
`Message 5`, a `Restart` returns the state to 0 and the loop keeps
running. -/
theorem restart_resets_state_witness :
    getState (runLoop hAdd 0 ([ActorMessage.Message 5] ++ [ActorMessage.Restart])) = 0 ∧
    (runLoop hAdd 0 ([ActorMessage.Message 5] ++ [ActorMessage.Restart])).status =
      LoopStatus.Running :=
  restart_resets_state hAdd 0 [ActorMessage.Message 5] (by decide)

/-! ## Claim C6 -/

/-- C6: `Stop` is not prioritized — if the loop is still running after
the envelopes queued before the `Stop`, it processes exactly those
envelopes and then the `Stop`, so every earlier envelope is applied
before shutdown and the state at shutdown is the state they produced;
and unconditionally, envelopes queued after the `Stop` never mutate
the state, so `getState` returns the frozen last value. -/
theorem stop_fifo_frozen_state {S M E : Type} (handler : S → M → Except E S) (init : S)
    (pre post : List (ActorMessage M)) :
    ((runLoop handler init pre).status = LoopStatus.Running →
      (runLoop handler init (pre ++ ActorMessage.Stop :: post)).processed =
        pre ++ [ActorMessage.Stop] ∧
      getState (runLoop handler init (pre ++ ActorMessage.Stop :: post)) =
        getState (runLoop handler init pre)) ∧
    getState (runLoop handler init (pre ++ ActorMessage.Stop :: post)) =
      getState (runLoop handler init (pre ++ [ActorMessage.Stop])) := by
  have habs := runLoop_absorb_after_stop handler init pre post
  constructor
  · intro hrun
    have hproc := runLoop_running_processed handler init pre hrun
    have hstep := runLoop_snoc handler init pre ActorMessage.Stop
    constructor
    · rw [habs, hstep, superviseStep_processed_of_running handler init _ _ hrun, hproc]
    · rw [habs, hstep]
      simp [superviseStep, hrun, getState]
  · rw [habs]

/-- C6 (witness): with the adding handler, queue
`[Message 5, Stop, Message 7]`: the envelope before the `Stop` is
applied, the one after it is not, and the state is frozen at 5. -/
theorem stop_fifo_frozen_state_witness :
    (runLoop hAdd 0 ([ActorMessage.Message 5] ++ ActorMessage.Stop :: [ActorMessage.Message 7])).processed =
      [ActorMessage.Message 5] ++ [ActorMessage.Stop] ∧
    getState (runLoop hAdd 0 ([ActorMessage.Message 5] ++ ActorMessage.Stop :: [ActorMessage.Message 7])) =
      getState (runLoop hAdd 0 [ActorMessage.Message 5]) :=
  (stop_fifo_frozen_state hAdd 0 [ActorMessage.Message 5] [ActorMessage.Message 7]).1 (by decide)

/-! ## Claim C3 -/

/-- C3 (counterexample): after the loop has processed a `Stop`
envelope (status `Stopped`), an enqueue is not rejected: `send`,
`stop` and `restart` all still return `accepted = true`, because
`Queue.offer` on the unbounded queue — which the source never shuts
down — always succeeds.  The claim says they would return `false`. -/
theorem send_after_stop_accepted_cex :
    (runLoop hAdd 0 [ActorMessage.Stop]).status = LoopStatus.Stopped ∧
    (sendQ ([] : List (ActorMessage Int)) 7).2 = true ∧
    ¬((sendQ ([] : List (ActorMessage Int)) 7).2 = false) ∧
    (stopQ ([] : List (ActorMessage Int))).2 ≠ false ∧
    (restartQ ([] : List (ActorMessage Int))).2 ≠ false := by decide

/-- C3 (amended): the mailbox is never closed: every enqueue — send,
stop or restart — returns `accepted = true` and appends its envelope,
even after a `Stop` has been processed; such envelopes are simply
never processed, since the loop dequeues at most the envelopes up to
and including the first `Stop` it reaches. -/
theorem send_after_stop_accepted {S M E : Type} (handler : S → M → Except E S) (init : S)
    (q : List (ActorMessage M)) (m : M) (pre post : List (ActorMessage M)) :
    (sendQ q m).2 = true ∧ (sendQ q m).1 = q ++ [ActorMessage.Message m] ∧
    (stopQ q).2 = true ∧ (restartQ q).2 = true ∧
    (runLoop handler init (pre ++ ActorMessage.Stop :: post)).processed.length ≤
      pre.length + 1 := by
  refine ⟨rfl, rfl, rfl, rfl, ?_⟩
  rw [runLoop_absorb_after_stop handler init pre post]
  have hx : (runLoop handler init (pre ++ [ActorMessage.Stop])).processed.length ≤
      0 + (pre ++ [ActorMessage.Stop]).length :=
    foldl_step_processed_length handler init (pre ++ [ActorMessage.Stop])
      (⟨init, .Running, []⟩ : LoopState S M)
  simp only [List.length_append, List.length_cons, List.length_nil] at hx
  omega

/-! ## Bank handler lemmas -/

/-- Net movement of an extended ledger. -/
theorem txSum_append (l : List BankTx) (t : BankTx) :
    txSum (l ++ [t]) = txSum l + txDelta t := by
  simp [txSum]

/-- The bank handler always returns a successor state (its error
channel is `never`). -/
theorem bank_ok (ts : Nat) (s : BankAccount) (m : BankMessage) :
    ∃ s', bankAccountHandler ts s m = Except.ok s' := by
  cases m with
  | deposit a => exact ⟨_, rfl⟩
  | withdraw a =>
    dsimp [bankAccountHandler]
    split
    · exact ⟨_, rfl⟩
    · exact ⟨_, rfl⟩
  | transfer dst a =>
    dsimp [bankAccountHandler]
    split
    · exact ⟨_, rfl⟩
    · exact ⟨_, rfl⟩

/-- With a handler whose error channel is `never`, the loop's crash
branch is unreachable. -/
theorem foldl_step_no_crash {S M : Type} (handler : S → M → Except Empty S) (init : S)
    (l : List (ActorMessage M)) :
    ∀ st : LoopState S M, st.status ≠ LoopStatus.Crashed →
      (l.foldl (superviseStep handler init) st).status ≠ LoopStatus.Crashed := by
  induction l with
  | nil => intro st h; exact h
  | cons m l ih =>
    intro st h
    rw [List.foldl_cons]
    apply ih
    cases hs : st.status with
    | Running =>
      cases m with
      | Stop => simp [superviseStep, hs]
      | Restart => simp [superviseStep, hs]
      | Message mm =>
        simp only [superviseStep, hs]
        cases hr : (retryRun (fun _ => handler st.state mm) 3).1 with
        | ok s' => simp
        | error e => exact e.elim
    | Stopped =>
      rw [superviseStep_not_running handler init st m (by rw [hs]; simp), hs]
      simp
    | Crashed => exact absurd hs h

/-! ## Claim C8 -/

/-- C8: the bank-account handler is infallible — for every state and
bank message it returns a successor state (error channel `never`,
here `Empty`); consequently the Retry Executor invokes it exactly
once per envelope, and a loop driven by it can never crash on retry
exhaustion, whatever envelopes it is offered. -/
theorem bank_handler_infallible (ts : Nat) (s : BankAccount) (m : BankMessage) :
    (∃ s', bankAccountHandler ts s m = Except.ok s') ∧
    (retryRun (fun _ => bankAccountHandler ts s m) 3).2 = 1 ∧
    ∀ (init : BankAccount) (msgs : List (ActorMessage BankMessage)),
      (runLoop (bankAccountHandler ts) init msgs).status ≠ LoopStatus.Crashed := by
  obtain ⟨s', hs'⟩ := bank_ok ts s m
  refine ⟨⟨s', hs'⟩, ?_, ?_⟩
  · simp [retryRun, retryGo, hs']
  · intro init msgs
    exact foldl_step_no_crash (bankAccountHandler ts) init msgs ⟨init, .Running, []⟩ (by simp)

/-! ## Claim C9 -/

/-- C9: every bank handler application preserves the ledger invariant
`balance - (sum of deposit amounts - sum of withdraw and transfer
amounts) = const`; a non-rejected deposit, withdraw or transfer
appends exactly one matching record and moves the balance by exactly
its amount, and a withdraw or transfer whose amount exceeds the
balance returns the whole state unchanged, appending no record. -/
theorem bank_handler_ledger_invariant (ts : Nat) (s : BankAccount) (m : BankMessage)
    (s' : BankAccount) (h : bankAccountHandler ts s m = Except.ok s') :
    balanceDrift s' = balanceDrift s ∧
    (match m with
     | BankMessage.deposit a =>
         s'.transactions = s.transactions ++ [⟨"deposit", a, ts⟩] ∧
         s'.balance = s.balance + a
     | BankMessage.withdraw a =>
         if s.balance < a then s' = s
         else s'.transactions = s.transactions ++ [⟨"withdraw", a, ts⟩] ∧
           s'.balance = s.balance - a
     | BankMessage.transfer _ a =>
         if s.balance < a then s' = s
         else s'.transactions = s.transactions ++ [⟨"transfer", a, ts⟩] ∧
           s'.balance = s.balance - a) := by
  cases m with
  | deposit a =>
    simp only [bankAccountHandler, Except.ok.injEq] at h
    subst h
    refine ⟨?_, rfl, rfl⟩
    simp [balanceDrift, txSum_append, txDelta]
  | withdraw a =>
    by_cases hb : s.balance < a
    · simp only [bankAccountHandler, if_pos hb, Except.ok.injEq] at h
      subst h
      simp [hb]
    · simp only [bankAccountHandler, if_neg hb, Except.ok.injEq] at h
      subst h
      refine ⟨?_, ?_⟩
      · simp only [balanceDrift, txSum_append, txDelta]
        have : ¬(("withdraw" : String) = "deposit") := by decide
        simp [this]
        ring
      · simp [hb]
  | transfer dst a =>
    by_cases hb : s.balance < a
    · simp only [bankAccountHandler, if_pos hb, Except.ok.injEq] at h
      subst h
      simp [hb]
    · simp only [bankAccountHandler, if_neg hb, Except.ok.injEq] at h
      subst h
      refine ⟨?_, ?_⟩
      · simp only [balanceDrift, txSum_append, txDelta]
        have : ¬(("transfer" : String) = "deposit") := by decide
        simp [this]
        ring
      · simp [hb]

/-- C9 (witness): a deposit of 5 on balance 100 with an empty ledger
preserves the drift, appends the matching record, and moves the
balance by exactly 5. -/
theorem bank_handler_ledger_invariant_witness :
    balanceDrift ⟨105, [⟨"deposit", 5, 0⟩]⟩ = balanceDrift ⟨100, []⟩ ∧
    ([⟨"deposit", 5, 0⟩] : List BankTx) = [] ++ [⟨"deposit", 5, 0⟩] ∧
    (105 : Int) = 100 + 5 := by
  exact bank_handler_ledger_invariant 0 ⟨100, []⟩ (BankMessage.deposit 5)
    ⟨105, [⟨"deposit", 5, 0⟩]⟩ (by decide)

/-! ## Claim C10 -/

/-- C10: the bank handler does not validate the sign of amounts — a
deposit of a negative amount succeeds and yields `balance + amount`
(possibly negative), and on a non-negative balance a withdraw of a
negative amount passes the insufficient-funds guard and grows the
balance by the amount's magnitude; both append a record. -/
theorem bank_handler_negative_amounts (ts : Nat) (s : BankAccount) (a : Int) (ha : a < 0) :
    bankAccountHandler ts s (BankMessage.deposit a) =
      Except.ok ⟨s.balance + a, s.transactions ++ [⟨"deposit", a, ts⟩]⟩ ∧
    (0 ≤ s.balance →
      bankAccountHandler ts s (BankMessage.withdraw a) =
        Except.ok ⟨s.balance + |a|, s.transactions ++ [⟨"withdraw", a, ts⟩]⟩) := by
  constructor
  · rfl
  · intro hb
    have hguard : ¬s.balance < a := by omega
    have habs : s.balance - a = s.balance + |a| := by
      rw [abs_of_neg ha]
      ring
    simp only [bankAccountHandler, if_neg hguard, habs]

/-- C10 (witness): on balance 3 a deposit of -5 yields balance -2,
which is negative, and a withdraw of -5 yields balance 8 = 3 + |-5|;
both append their record. -/
theorem bank_handler_negative_amounts_witness :
    (bankAccountHandler 0 ⟨3, []⟩ (BankMessage.deposit (-5)) =
      Except.ok ⟨3 + (-5), [] ++ [⟨"deposit", -5, 0⟩]⟩) ∧
    (bankAccountHandler 0 ⟨3, []⟩ (BankMessage.withdraw (-5)) =
      Except.ok ⟨3 + |(-5 : Int)|, [] ++ [⟨"withdraw", -5, 0⟩]⟩) ∧
    (3 + (-5) : Int) < 0 :=
  ⟨(bank_handler_negative_amounts 0 ⟨3, []⟩ (-5) (by decide)).1,
   (bank_handler_negative_amounts 0 ⟨3, []⟩ (-5) (by decide)).2 (by decide),
   by decide⟩

/-! ## Claim C7 -/

/-- C7: the concrete bank scenario.  From `{balance: 1000}`, a deposit
of 500 brings the balance to 1500; a withdraw of 200 to 1300; a
withdraw of 5000 is treated by the handler as a normal non-failing
outcome returning the state unchanged (one attempt, no retry, loop
still running); after the `Stop` a further send is not applied; the
final `getState` returns balance 1300. -/
theorem bank_demo_scenario :
    (runLoop (bankAccountHandler 0) ⟨1000, []⟩
      [ActorMessage.Message (BankMessage.deposit 500)]).state.balance = 1500 ∧
    (runLoop (bankAccountHandler 0) ⟨1000, []⟩
      [ActorMessage.Message (BankMessage.deposit 500),
       ActorMessage.Message (BankMessage.withdraw 200)]).state.balance = 1300 ∧
    (runLoop (bankAccountHandler 0) ⟨1000, []⟩
      [ActorMessage.Message (BankMessage.deposit 500),
       ActorMessage.Message (BankMessage.withdraw 200),
       ActorMessage.Message (BankMessage.withdraw 5000)]).state =
      (runLoop (bankAccountHandler 0) ⟨1000, []⟩
        [ActorMessage.Message (BankMessage.deposit 500),
         ActorMessage.Message (BankMessage.withdraw 200)]).state ∧
    (runLoop (bankAccountHandler 0) ⟨1000, []⟩
      [ActorMessage.Message (BankMessage.deposit 500),
       ActorMessage.Message (BankMessage.withdraw 200),
       ActorMessage.Message (BankMessage.withdraw 5000)]).status = LoopStatus.Running ∧
    (retryRun (fun _ => bankAccountHandler 0
      (runLoop (bankAccountHandler 0) ⟨1000, []⟩
        [ActorMessage.Message (BankMessage.deposit 500),
         ActorMessage.Message (BankMessage.withdraw 200)]).state
      (BankMessage.withdraw 5000)) 3).2 = 1 ∧
    (runLoop (bankAccountHandler 0) ⟨1000, []⟩
      [ActorMessage.Message (BankMessage.deposit 500),
       ActorMessage.Message (BankMessage.withdraw 200),
       ActorMessage.Message (BankMessage.withdraw 5000),
       ActorMessage.Stop,
       ActorMessage.Message (BankMessage.deposit 999)]).processed =
      [ActorMessage.Message (BankMessage.deposit 500),
       ActorMessage.Message (BankMessage.withdraw 200),
       ActorMessage.Message (BankMessage.withdraw 5000),
       ActorMessage.Stop] ∧
    (getState (runLoop (bankAccountHandler 0) ⟨1000, []⟩
      [ActorMessage.Message (BankMessage.deposit 500),
       ActorMessage.Message (BankMessage.withdraw 200),
       ActorMessage.Message (BankMessage.withdraw 5000),
       ActorMessage.Stop,
       ActorMessage.Message (BankMessage.deposit 999)])).balance = 1300 := by
  decide

end ActorSystem
